import Mathlib

/-!
Verification of the chat system in this repository (src/server.py, src/client.py,
src/gui.py) against its natural-language specification.

The server and client are shallowly embedded: socket identifiers are natural
numbers, the server's `clients` dict is an association list with distinct keys,
and network I/O is represented by event traces.  Environment behaviour that the
code reacts to (whether a `send` raises, what `recv` returns, whether a byte
chunk decodes as UTF-8) is passed in explicitly as oracles/scripts, so every
embedded operation is a total function from code-state plus environment to
result-state plus emitted events.
-/

namespace Chat

/-! ### Server data model (src/server.py)

`ChatServer.clients : Dict[socket, str]` maps sockets to usernames.  Sockets are
modelled as naturals; the dict as an association list whose keys are distinct
(a Python dict can never hold a key twice).  `dictGet`, `dictInsert`,
`dictRemove` model `d.get(k)` / `d[k] = v` / `d.pop(k, None)`. -/

abbrev Sock := Nat

abbrev Registry := List (Sock × String)

/-- Python's `str.strip()` with no arguments: drop leading and trailing
whitespace.  (Defined over the character list by structural recursion so that
it evaluates inside the kernel; Lean's own `String.trim` is extensionally the
same but does not reduce definitionally.) -/
def pyStrip (s : String) : String :=
  ⟨((s.data.dropWhile Char.isWhitespace).reverse.dropWhile
      Char.isWhitespace).reverse⟩

def dictGet : Registry → Sock → Option String
  | [], _ => none
  | (k, v) :: rest, s => if k = s then some v else dictGet rest s

def dictInsert (l : Registry) (k : Sock) (v : String) : Registry :=
  if l.any (fun p => p.1 = k) then
    l.map (fun p => if p.1 = k then (k, v) else p)
  else
    l ++ [(k, v)]

def dictRemove (l : Registry) (s : Sock) : Registry :=
  l.filter (fun p => p.1 ≠ s)

def dictKeys (l : Registry) : List Sock :=
  l.map Prod.fst

/-- Observable server-side I/O actions: a successful `send` of a payload to a
client socket, a `close` of a client socket, and the close of the listening
socket.  A send that raises produces no event (the exception is swallowed at
the call site, `except: pass`). -/
inductive Event where
  | send (dst : Sock) (payload : String)
  | close (dst : Sock)
  | closeServer
deriving DecidableEq, Repr

/-- `ChatServer.broadcast(message, exclude)` (src/server.py lines 110-117):
iterates a snapshot of the client dict under the lock and attempts
`client.send(message)` for every client different from `exclude`, swallowing
per-recipient send errors.  `sendOk c` tells whether the send to socket `c`
succeeds; a failed send emits nothing and the loop continues. -/
def broadcast (clients : Registry) (message : String) (exclude : Option Sock)
    (sendOk : Sock → Bool) : List Event :=
  clients.flatMap fun p =>
    if some p.1 = exclude then []
    else if sendOk p.1 then [Event.send p.1 message] else []

/-- The leave announcement `f"[SYSTEM] {username} left the chat"`. -/
def leaveMsg (u : String) : String := "[SYSTEM] " ++ u ++ " left the chat"

/-- The join announcement `f"[SYSTEM] {username} joined the chat"`. -/
def joinMsg (u : String) : String := "[SYSTEM] " ++ u ++ " joined the chat"

/-- `ChatServer._disconnect_client(client_socket)` (src/server.py lines
121-132): pops the socket's registry entry under the lock; if a (truthy, i.e.
non-empty) username was registered, broadcasts the leave announcement over the
updated registry; finally closes the socket, swallowing close errors. -/
def disconnect_client (clients : Registry) (sock : Sock) (sendOk : Sock → Bool) :
    Registry × List Event :=
  (dictRemove clients sock,
   (match dictGet clients sock with
    | some u =>
      if u = "" then []
      else broadcast (dictRemove clients sock) (leaveMsg u) none sendOk
    | none => []) ++ [Event.close sock])

/-- One `recv` outcome on the server side: a returned byte chunk (possibly
empty: a zero-length read means the peer closed), or a raised socket error. -/
inductive RecvResult where
  | chunk (data : List Nat)
  | fail
deriving DecidableEq, Repr

/-- The environment script driving one `_handle_client` run: whether the
initial welcome `send` succeeds, the outcome of the username `recv`, and the
outcomes of the message-loop `recv`s. -/
structure HandlerScript where
  welcomeOk : Bool
  usernameRecv : RecvResult
  msgRecvs : List RecvResult
deriving Repr

def welcomeText : String := "Welcome! Please enter your username"

/-- The message loop of `_handle_client` (src/server.py lines 93-100): each
non-empty chunk that decodes is broadcast as `f"{username}: {message}"`
excluding the sender; a zero-length read breaks the loop; a recv error or a
`UnicodeDecodeError` (`decode bs = none`) raises out of the loop into the
handler's `except`.  Returns `none` when the script runs out while the loop is
still blocked on `recv`, `some evs` with the emitted events when the loop
exits. -/
def msgLoop (clients : Registry) (sock : Sock) (username : String)
    (decode : List Nat → Option String) (sendOk : Sock → Bool) :
    List RecvResult → Option (List Event)
  | [] => none
  | RecvResult.fail :: _ => some []
  | RecvResult.chunk bs :: rest =>
    if bs = [] then some []
    else
      match decode bs with
      | none => some []
      | some m =>
        match msgLoop clients sock username decode sendOk rest with
        | none => none
        | some evs =>
          some (broadcast clients (username ++ ": " ++ m) (some sock) sendOk ++ evs)

/-- `ChatServer._handle_client` (src/server.py lines 76-106): sends the
welcome, reads and strips the username, abandons the connection when it is
empty, otherwise registers it, broadcasts the join announcement excluding the
new socket, runs the message loop, and — in the `finally` on every exit path
(normal break, recv error, decode error, failed welcome send) — runs
`_disconnect_client`.  Result: `none` when the script leaves the handler still
blocked; otherwise `some (final registry, emitted events, registered
username)` where the last component is `none` when the connection was never
registered. -/
def handle_client (clients : Registry) (sock : Sock) (script : HandlerScript)
    (decode : List Nat → Option String) (sendOk : Sock → Bool) :
    Option (Registry × List Event × Option String) :=
  if script.welcomeOk = false then
    let r := disconnect_client clients sock sendOk
    some (r.1, r.2, none)
  else
    let wEv := [Event.send sock welcomeText]
    match script.usernameRecv with
    | RecvResult.fail =>
      let r := disconnect_client clients sock sendOk
      some (r.1, wEv ++ r.2, none)
    | RecvResult.chunk bs =>
      match decode bs with
      | none =>
        let r := disconnect_client clients sock sendOk
        some (r.1, wEv ++ r.2, none)
      | some s =>
        let username := pyStrip s
        if username = "" then
          let r := disconnect_client clients sock sendOk
          some (r.1, wEv ++ r.2, none)
        else
          let reg1 := dictInsert clients sock username
          let joinEvs := broadcast reg1 (joinMsg username) (some sock) sendOk
          match msgLoop reg1 sock username decode sendOk script.msgRecvs with
          | none => none
          | some loopEvs =>
            let r := disconnect_client reg1 sock sendOk
            some (r.1, wEv ++ joinEvs ++ loopEvs ++ r.2, some username)

/-- The server state relevant to `shutdown`: the registry, the `running` flag
and whether `server_socket` is set (it is `None` until `start` binds it). -/
structure ServerState where
  clients : Registry
  running : Bool
  hasServerSocket : Bool
deriving DecidableEq, Repr

/-- `ChatServer.shutdown()` (src/server.py lines 136-153): clears the running
flag, closes every registered connection under the lock swallowing errors,
clears the dict, then closes the listening socket (if set) swallowing
errors. -/
def shutdown (st : ServerState) : ServerState × List Event :=
  let closeEvs := st.clients.map (fun p => Event.close p.1)
  let serverEvs := if st.hasServerSocket then [Event.closeServer] else []
  ({ st with running := false, clients := [] }, closeEvs ++ serverEvs)

/-! ### Client session model (src/client.py)

`ChatClient` holds `username : Optional[str]`, `socket : Optional[socket]` and
`is_connected : bool`.  The embedding keeps those three (plus whether the
socket has been closed, which a Python socket object records internally), and
its operations additionally emit client-side events: `status`/`message` are
the `on_status`/`on_message` notifications (or their console fallbacks),
`write` is a `sendall` attempt on the socket, `close` a `socket.close()`
attempt, `prompt` a console `input()` call. -/

inductive CEvent where
  | status (s : String)
  | message (s : String)
  | write (payload : String)
  | close
  | prompt
deriving DecidableEq, Repr

structure ClientState where
  username : Option String
  hasSocket : Bool
  sockClosed : Bool
  is_connected : Bool
deriving DecidableEq, Repr

/-- `ChatClient.send_message(message)` (src/client.py lines 130-145): when not
connected (or no socket), notifies "Not connected" and returns `False` without
touching the socket; otherwise attempts `sendall` of the full payload —
success returns `True`, a raised send error flips `is_connected` to `False`
and returns `False`.  `sendallOk` tells whether the `sendall` call succeeds. -/
def send_message (st : ClientState) (message : String) (sendallOk : Bool) :
    Bool × ClientState × List CEvent :=
  if st.is_connected = false ∨ st.hasSocket = false then
    (false, st, [CEvent.status "Not connected"])
  else if sendallOk then
    (true, st, [CEvent.write message])
  else
    (false, { st with is_connected := false }, [CEvent.write message])

/-- `ChatClient.disconnect()` (src/client.py lines 147-158): sets
`is_connected` to `False`, closes the socket if there is one (swallowing close
errors), and emits a final "Disconnected" status. -/
def disconnect (st : ClientState) : ClientState × List CEvent :=
  let closeEvs := if st.hasSocket then [CEvent.close] else []
  ({ st with is_connected := false,
             sockClosed := st.hasSocket || st.sockClosed },
   closeEvs ++ [CEvent.status "Disconnected"])

/-- How the TCP connection attempt (`socket.create_connection` with a 5 s
timeout) ends: success, `socket.timeout`, `ConnectionRefusedError`, or any
other exception with its text. -/
inductive ConnOutcome where
  | ok
  | timeout
  | refused
  | other (msg : String)
deriving DecidableEq, Repr

/-- The environment script driving one `ChatClient.connect` run: the
connection attempt's outcome, the welcome `recv`+decode result (`none` means
it raised, with text `welcomeErr`), the console `input()` result when the
client has no username (`none` means `input` raised), and whether the
`sendall` of the username succeeds (with exception text `sendErr`). -/
structure ConnectScript where
  conn : ConnOutcome
  welcomeRecv : Option String
  welcomeErr : String
  inputResult : Option String
  sendErr : String
  sendallOk : Bool
deriving Repr

/-- `ChatClient.connect()` (src/client.py lines 36-93): opens the TCP
connection (timeout / refusal / other errors are caught and reported as
distinct status events, returning `False`); receives and reports the welcome;
prompts for a username when none was supplied (falling back to "anonymous"
when `input` raises); sends the username with `sendall` (failure is terminal
for the attempt); on full success sets `is_connected` and reports
"Connected as <username>". -/
def connect (st : ClientState) (script : ConnectScript) :
    Bool × ClientState × List CEvent :=
  match script.conn with
  | ConnOutcome.timeout => (false, st, [CEvent.status "Connection timed out"])
  | ConnOutcome.refused => (false, st, [CEvent.status "Connection refused"])
  | ConnOutcome.other e => (false, st, [CEvent.status ("Connection failed: " ++ e)])
  | ConnOutcome.ok =>
    let st1 := { st with hasSocket := true, sockClosed := false }
    match script.welcomeRecv with
    | none =>
      (false, st1, [CEvent.status ("Connection failed: " ++ script.welcomeErr)])
    | some w =>
      let msgEv := [CEvent.message ("[SERVER] " ++ w)]
      let needsPrompt : Bool :=
        match st1.username with
        | none => true
        | some u => u = ""
      let uname : String :=
        if needsPrompt then
          match script.inputResult with
          | some s => pyStrip s
          | none => "anonymous"
        else st1.username.getD ""
      let promptEvs := if needsPrompt then [CEvent.prompt] else []
      let st2 := { st1 with username := some uname }
      if script.sendallOk = false then
        (false, st2,
         msgEv ++ promptEvs ++
           [CEvent.write uname,
            CEvent.status ("Failed sending username: " ++ script.sendErr)])
      else
        (true, { st2 with is_connected := true },
         msgEv ++ promptEvs ++
           [CEvent.write uname, CEvent.status ("Connected as " ++ uname)])

/-! ### UDP discovery (spec §4.1; caller src/gui.py lines 158-172)

`ChatClient.discover_servers(timeout)` is invoked by the GUI's
`refresh_servers` but its definition is not present in src/client.py in this
repository, so the probe is modelled from the spec. -/

/-- Splitting a character list at every occurrence of a separator (the
semantics of Python's `s.split("|")` for a one-character separator): adjacent
separators yield empty fields and the empty string yields one empty field. -/
def splitChar (sep : Char) : List Char → List (List Char)
  | [] => [[]]
  | c :: rest =>
    match splitChar sep rest with
    | [] => if c = sep then [[], []] else [[c]]
    | h :: t => if c = sep then [] :: h :: t else (c :: h) :: t

/-- Parse an all-digit ASCII decimal numeral; `none` on the empty list or any
non-digit character (the failure case of Python's `int(...)`). -/
def parseNatAux : List Char → Nat → Option Nat
  | [], acc => some acc
  | c :: rest, acc =>
    if c.isDigit then parseNatAux rest (acc * 10 + (c.toNat - '0'.toNat))
    else none

def parseNat? : List Char → Option Nat
  | [] => none
  | cs => parseNatAux cs 0

/-- Modelled from the spec: parsing of one discovery datagram.
`ChatClient.discover_servers` itself is missing from src/ (only its caller in
src/gui.py exists).  Per spec §4.1 a valid datagram is a UTF-8 payload of
exactly three `|`-delimited fields: the literal tag `CHAT_SERVER`, the
server's IP, and the port as an ASCII integer; anything else (wrong field
count, wrong tag, non-numeric port) is discarded. -/
def parseDatagram (s : String) : Option (String × Nat) :=
  match splitChar '|' s.data with
  | [tag, ip, portStr] =>
    if tag = "CHAT_SERVER".data then
      match parseNat? portStr with
      | some p => some (⟨ip⟩, p)
      | none => none
    else none
  | _ => none

/-- Insertion into the ip → port result dict (last write wins per IP). -/
def ipDictInsert (l : List (String × Nat)) (ip : String) (p : Nat) :
    List (String × Nat) :=
  if l.any (fun q => q.1 = ip) then
    l.map (fun q => if q.1 = ip then (ip, p) else q)
  else
    l ++ [(ip, p)]

def ipDictGet : List (String × Nat) → String → Option Nat
  | [], _ => none
  | (k, v) :: rest, s => if k = s then some v else ipDictGet rest s

/-- Modelled from the spec: `ChatClient.discover_servers(timeout)` (definition
missing from src/, called at src/gui.py line 162).  Per spec §4.1 it listens
for datagrams until the deadline and returns the dict of `(ip, port)` pairs
parsed from valid datagrams, duplicate IPs overwritten last-write-wins;
malformed datagrams are silently discarded and zero responses yield an empty
dict, not an error.  `datagrams` is the list of payloads observed, in order,
within the probe window. -/
def discover_servers (datagrams : List String) : List (String × Nat) :=
  datagrams.foldl
    (fun acc d =>
      match parseDatagram d with
      | some (ip, p) => ipDictInsert acc ip p
      | none => acc)
    []

/-! ### Helper lemmas -/

theorem dictGet_eq_none {l : Registry} {s : Sock} :
    dictGet l s = none ↔ ∀ p ∈ l, p.1 ≠ s := by
  induction l with
  | nil => simp [dictGet]
  | cons hd tl ih =>
    by_cases hk : hd.1 = s
    · constructor
      · intro h
        rw [show hd = (hd.1, hd.2) from rfl, dictGet, if_pos hk] at h
        exact absurd h (by simp)
      · intro h
        exact absurd hk (h hd (List.mem_cons_self hd tl))
    · rw [show hd = (hd.1, hd.2) from rfl, dictGet, if_neg hk]
      rw [ih]
      constructor
      · intro h p hp
        rcases List.mem_cons.1 hp with h1 | h1
        · rw [h1]; exact hk
        · exact h p h1
      · intro h p hp
        exact h p (List.mem_cons_of_mem _ hp)

theorem dictRemove_eq_self {l : Registry} {s : Sock} (h : dictGet l s = none) :
    dictRemove l s = l := by
  rw [dictRemove, List.filter_eq_self]
  intro p hp
  simpa using dictGet_eq_none.1 h p hp

theorem dictGet_dictRemove (l : Registry) (s : Sock) :
    dictGet (dictRemove l s) s = none := by
  rw [dictGet_eq_none]
  intro p hp
  simpa using (List.of_mem_filter hp)

theorem mem_dictRemove {l : Registry} {s : Sock} {p : Sock × String}
    (hp : p ∈ l) (hne : p.1 ≠ s) : p ∈ dictRemove l s := by
  exact List.mem_filter.2 ⟨hp, by simpa using hne⟩

/-- Events emitted by `broadcast`: exactly the successful sends of `message`
to registered sockets other than the excluded one. -/
theorem mem_broadcast {clients : Registry} {message : String} {ex : Option Sock}
    {sendOk : Sock → Bool} {e : Event} :
    e ∈ broadcast clients message ex sendOk ↔
      ∃ c v, (c, v) ∈ clients ∧ some c ≠ ex ∧ sendOk c = true ∧
        e = Event.send c message := by
  constructor
  · intro h
    rcases List.mem_flatMap.1 h with ⟨p, hp, he⟩
    by_cases h1 : some p.1 = ex
    · rw [if_pos h1] at he
      exact absurd he (List.not_mem_nil e)
    · rw [if_neg h1] at he
      by_cases h2 : sendOk p.1
      · rw [if_pos h2] at he
        have := List.mem_singleton.1 he
        exact ⟨p.1, p.2, by simpa using hp, h1, h2, this⟩
      · rw [if_neg h2] at he
        exact absurd he (List.not_mem_nil e)
  · rintro ⟨c, v, hcv, hex, hok, rfl⟩
    refine List.mem_flatMap.2 ⟨(c, v), hcv, ?_⟩
    rw [if_neg hex, if_pos hok]
    exact List.mem_singleton.2 rfl

theorem close_not_mem_broadcast {clients : Registry} {message : String}
    {ex : Option Sock} {sendOk : Sock → Bool} {c : Sock} :
    Event.close c ∉ broadcast clients message ex sendOk := by
  intro h
  rcases mem_broadcast.1 h with ⟨_, _, _, _, _, h⟩
  exact Event.noConfusion h

theorem send_excluded_not_mem_broadcast {clients : Registry} {message m : String}
    {sendOk : Sock → Bool} {s : Sock} :
    Event.send s m ∉ broadcast clients message (some s) sendOk := by
  intro h
  rcases mem_broadcast.1 h with ⟨c, v, _, hex, _, he⟩
  cases he
  exact hex rfl

/-- Exactly-once delivery: with distinct registry keys, the number of sends of
`message` to socket `c` in one `broadcast` call is 1 when `c` is registered,
not excluded and its send succeeds, else 0. -/
theorem count_broadcast (clients : Registry) (message : String) (ex : Option Sock)
    (sendOk : Sock → Bool) (c : Sock) (hnd : (dictKeys clients).Nodup) :
    (broadcast clients message ex sendOk).count (Event.send c message) =
      if (dictGet clients c).isSome ∧ some c ≠ ex ∧ sendOk c = true then 1
      else 0 := by
  induction clients with
  | nil => simp [broadcast, dictGet]
  | cons hd tl ih =>
    rw [dictKeys, List.map_cons, List.nodup_cons] at hnd
    have hnd' : (dictKeys tl).Nodup := hnd.2
    have step : broadcast (hd :: tl) message ex sendOk =
        (if some hd.1 = ex then []
         else if sendOk hd.1 then [Event.send hd.1 message] else []) ++
          broadcast tl message ex sendOk := by
      simp [broadcast]
    rw [step, List.count_append, ih hnd']
    by_cases hc : hd.1 = c
    · have hget : dictGet tl c = none := by
        rw [dictGet_eq_none]
        intro p hp hps
        apply hnd.1
        have hmem : p.1 ∈ List.map Prod.fst tl := List.mem_map_of_mem Prod.fst hp
        rwa [hps, ← hc] at hmem
      have hget2 : dictGet (hd :: tl) c = some hd.2 := by
        rw [show hd = (hd.1, hd.2) from rfl, dictGet, if_pos hc]
      rw [hget, hget2]
      subst hc
      by_cases h1 : some hd.1 = ex
      · simp [h1]
      · by_cases h2 : sendOk hd.1
        · simp [h1, h2]
        · simp [h1, h2]
    · have hget2 : dictGet (hd :: tl) c = dictGet tl c := by
        rw [show hd = (hd.1, hd.2) from rfl, dictGet, if_neg hc]
      rw [hget2]
      have hnotmem : Event.send c message ∉
          (if some hd.1 = ex then ([] : List Event)
           else if sendOk hd.1 then [Event.send hd.1 message] else []) := by
        intro h
        split at h
        · exact List.not_mem_nil _ h
        · split at h
          · have h' := List.mem_singleton.1 h
            injection h' with h1 h2
            exact hc h1.symm
          · exact List.not_mem_nil _ h
      rw [List.count_eq_zero.2 hnotmem, Nat.zero_add]

/-- Every event the message loop emits is a send to a socket other than the
sender (the sender is excluded from every broadcast, and the loop closes
nothing). -/
theorem msgLoop_events {clients : Registry} {sock : Sock} {username : String}
    {decode : List Nat → Option String} {sendOk : Sock → Bool}
    {recvs : List RecvResult} {evs : List Event}
    (h : msgLoop clients sock username decode sendOk recvs = some evs) :
    ∀ e ∈ evs, ∃ c m, c ≠ sock ∧ e = Event.send c m := by
  induction recvs generalizing evs with
  | nil => simp [msgLoop] at h
  | cons hd rest ih =>
    cases hd with
    | fail =>
      simp only [msgLoop, Option.some.injEq] at h
      subst h
      intro e he
      exact absurd he (List.not_mem_nil e)
    | chunk bs =>
      simp only [msgLoop] at h
      split at h
      · injection h with h
        subst h
        intro e he
        exact absurd he (List.not_mem_nil e)
      · split at h
        · injection h with h
          subst h
          intro e he
          exact absurd he (List.not_mem_nil e)
        · split at h
          · exact absurd h (by simp)
          · rename_i m _ evs' heq
            injection h with h
            subst h
            intro e he
            rcases List.mem_append.1 he with he' | he'
            · rcases mem_broadcast.1 he' with ⟨c, v, _, hex, _, rfl⟩
              exact ⟨c, _, fun hcs => hex (by rw [hcs]), rfl⟩
            · exact ih heq e he'

/-- The per-connection cleanup closes the socket; nothing else in the
disconnect path does, so this close is unique in the cleanup trace. -/
theorem count_close_disconnect_client (clients : Registry) (sock : Sock)
    (sendOk : Sock → Bool) :
    ((disconnect_client clients sock sendOk).2).count (Event.close sock) = 1 := by
  unfold disconnect_client
  rw [List.count_append]
  have h1 : (match dictGet clients sock with
      | some u =>
        if u = "" then []
        else broadcast (dictRemove clients sock) (leaveMsg u) none sendOk
      | none => ([] : List Event)).count (Event.close sock) = 0 := by
    rw [List.count_eq_zero]
    intro hmem
    split at hmem
    · split at hmem
      · exact List.not_mem_nil _ hmem
      · exact close_not_mem_broadcast hmem
    · exact List.not_mem_nil _ hmem
  rw [h1]
  simp

/-- Any completed `_handle_client` run ends with the cleanup having run
exactly once: no registry entry for the socket survives and the socket is
closed exactly once. -/
theorem handle_client_cleanup {clients : Registry} {sock : Sock}
    {script : HandlerScript} {decode : List Nat → Option String}
    {sendOk : Sock → Bool} {reg : Registry} {evs : List Event} {r : Option String}
    (h : handle_client clients sock script decode sendOk = some (reg, evs, r)) :
    dictGet reg sock = none ∧ evs.count (Event.close sock) = 1 := by
  have hwelcome : (List.count (Event.close sock) [Event.send sock welcomeText]) = 0 := by
    simp
  simp only [handle_client] at h
  split at h
  · injection h with h
    rw [Prod.mk.injEq, Prod.mk.injEq] at h
    obtain ⟨h1, h2, -⟩ := h
    subst h1; subst h2
    exact ⟨dictGet_dictRemove clients sock, count_close_disconnect_client clients sock sendOk⟩
  · split at h
    · injection h with h
      rw [Prod.mk.injEq, Prod.mk.injEq] at h
      obtain ⟨h1, h2, -⟩ := h
      subst h1; subst h2
      refine ⟨dictGet_dictRemove clients sock, ?_⟩
      rw [List.count_append, hwelcome, Nat.zero_add]
      exact count_close_disconnect_client clients sock sendOk
    · split at h
      · injection h with h
        rw [Prod.mk.injEq, Prod.mk.injEq] at h
        obtain ⟨h1, h2, -⟩ := h
        subst h1; subst h2
        refine ⟨dictGet_dictRemove clients sock, ?_⟩
        rw [List.count_append, hwelcome, Nat.zero_add]
        exact count_close_disconnect_client clients sock sendOk
      · split at h
        · injection h with h
          rw [Prod.mk.injEq, Prod.mk.injEq] at h
          obtain ⟨h1, h2, -⟩ := h
          subst h1; subst h2
          refine ⟨dictGet_dictRemove clients sock, ?_⟩
          rw [List.count_append, hwelcome, Nat.zero_add]
          exact count_close_disconnect_client clients sock sendOk
        · split at h
          · exact absurd h (by simp)
          · rename_i loopEvs heq
            injection h with h
            rw [Prod.mk.injEq, Prod.mk.injEq] at h
            obtain ⟨h1, h2, -⟩ := h
            subst h1; subst h2
            refine ⟨dictGet_dictRemove _ sock, ?_⟩
            rw [List.count_append, List.count_append, List.count_append]
            rw [hwelcome]
            rw [List.count_eq_zero.2 close_not_mem_broadcast]
            have hloop : loopEvs.count (Event.close sock) = 0 := by
              rw [List.count_eq_zero]
              intro hmem
              rcases msgLoop_events heq _ hmem with ⟨c, m, _, hcm⟩
              exact Event.noConfusion hcm
            rw [hloop]
            simpa using count_close_disconnect_client _ sock sendOk

/-- A chunk that fails to decode ends the message loop at that point: the
remainder of the script is never consumed, and the loop does exit (the raised
`UnicodeDecodeError` is converted into loop exit by the handler's `except`,
never left pending). -/
theorem msgLoop_stops_at_bad {clients : Registry} {sock : Sock}
    {username : String} {decode : List Nat → Option String}
    {sendOk : Sock → Bool} {bs : List Nat} (hbad : decode bs = none)
    (ms rest : List RecvResult) :
    msgLoop clients sock username decode sendOk
        (ms ++ RecvResult.chunk bs :: rest) =
      msgLoop clients sock username decode sendOk
        (ms ++ [RecvResult.chunk bs]) ∧
    (msgLoop clients sock username decode sendOk
        (ms ++ RecvResult.chunk bs :: rest)).isSome = true := by
  induction ms with
  | nil =>
    by_cases hne : bs = []
    · constructor <;> simp [msgLoop, hne]
    · constructor <;> simp [msgLoop, hne, hbad]
  | cons hd tl ih =>
    cases hd with
    | fail => constructor <;> simp [msgLoop]
    | chunk cbs =>
      by_cases hcb : cbs = []
      · constructor <;> simp [msgLoop, hcb]
      · cases hdec : decode cbs with
        | none => constructor <;> simp [msgLoop, hcb, hdec]
        | some m =>
          obtain ⟨heq, hsome⟩ := ih
          constructor
          · simp only [List.cons_append, msgLoop, if_neg hcb, hdec,
              List.append_eq, heq]
          · simp only [List.cons_append, msgLoop, if_neg hcb, hdec,
              List.append_eq]
            cases hm : msgLoop clients sock username decode sendOk
                (tl ++ RecvResult.chunk bs :: rest) with
            | none =>
              rw [hm] at hsome
              exact absurd hsome (by simp)
            | some evs => rfl

theorem ipDictGet_insert_self (l : List (String × Nat)) (ip : String) (p : Nat) :
    ipDictGet (ipDictInsert l ip p) ip = some p := by
  induction l with
  | nil => simp [ipDictInsert, ipDictGet]
  | cons hd tl ih =>
    by_cases hk : hd.1 = ip
    · have hany : (hd :: tl).any (fun q => q.1 = ip) = true := by simp [hk]
      simp [ipDictInsert, hany, hk, ipDictGet]
    · by_cases hany : tl.any (fun q => q.1 = ip)
      · have hany2 : (hd :: tl).any (fun q => q.1 = ip) = true := by
          simp only [List.any_cons, hany, Bool.or_true]
        rw [ipDictInsert, if_pos hany2, List.map_cons]
        rw [show (if hd.1 = ip then (ip, p) else hd) = hd from if_neg hk]
        rw [show hd = (hd.1, hd.2) from rfl, ipDictGet, if_neg hk]
        rw [ipDictInsert, if_pos hany] at ih
        exact ih
      · have hany2 : (hd :: tl).any (fun q => q.1 = ip) = false := by
          simp only [List.any_cons, hany, Bool.or_false]
          simp [hk]
        rw [ipDictInsert, if_neg (by simp [hany2]), List.cons_append]
        rw [show hd = (hd.1, hd.2) from rfl, ipDictGet, if_neg hk]
        rw [ipDictInsert, if_neg (by simp [hany])] at ih
        exact ih

theorem mem_ipDictInsert {l : List (String × Nat)} {k : String} {v : Nat}
    {q : String × Nat} (h : q ∈ ipDictInsert l k v) : q ∈ l ∨ q = (k, v) := by
  unfold ipDictInsert at h
  split at h
  · rcases List.mem_map.1 h with ⟨x, hx, hq⟩
    by_cases hxk : x.1 = k
    · rw [if_pos hxk] at hq
      exact Or.inr hq.symm
    · rw [if_neg hxk] at hq
      exact Or.inl (hq ▸ hx)
  · rcases List.mem_append.1 h with h1 | h1
    · exact Or.inl h1
    · exact Or.inr (List.mem_singleton.1 h1)

theorem discover_sound_aux (dgs : List String) (acc : List (String × Nat))
    (q : String × Nat)
    (h : q ∈ dgs.foldl
      (fun acc d =>
        match parseDatagram d with
        | some (ip, p) => ipDictInsert acc ip p
        | none => acc) acc) :
    q ∈ acc ∨ ∃ d ∈ dgs, parseDatagram d = some q := by
  induction dgs generalizing acc with
  | nil => exact Or.inl h
  | cons d rest ih =>
    rw [List.foldl_cons] at h
    rcases ih _ h with h1 | h1
    · cases hpd : parseDatagram d with
      | none =>
        rw [hpd] at h1
        exact Or.inl h1
      | some ipp =>
        obtain ⟨ip, p⟩ := ipp
        rw [hpd] at h1
        rcases mem_ipDictInsert h1 with h2 | h2
        · exact Or.inl h2
        · exact Or.inr ⟨d, List.mem_cons_self d rest, by rw [hpd, h2]⟩
    · rcases h1 with ⟨d', hd', hp⟩
      exact Or.inr ⟨d', List.mem_cons_of_mem d hd', hp⟩

/-! ### Claims -/

/-- C1: for a message `M` received from registered participant `P` (username
`u` on socket `s`), `broadcast` delivers the payload `"u: M"` to every
currently registered connection except `s`, exactly once per call (count 1
when the recipient is registered, not the sender, and its send succeeds, else
0); the sender never receives its own message; a send failure to one recipient
is isolated (the count of deliveries to `c` depends only on `sendOk c`) and
never propagates (the handler's loop continues into the same broadcast-prefixed
continuation). -/
theorem C1_broadcast_exactly_once
    (clients : Registry) (s : Sock) (u M : String) (sendOk sendOk' : Sock → Bool)
    (hnd : (dictKeys clients).Nodup) :
    (∀ c, (broadcast clients (u ++ ": " ++ M) (some s) sendOk).count
        (Event.send c (u ++ ": " ++ M)) =
      if (dictGet clients c).isSome ∧ c ≠ s ∧ sendOk c = true then 1 else 0) ∧
    (∀ m, Event.send s m ∉ broadcast clients (u ++ ": " ++ M) (some s) sendOk) ∧
    (∀ c, sendOk c = sendOk' c →
      (broadcast clients (u ++ ": " ++ M) (some s) sendOk).count
          (Event.send c (u ++ ": " ++ M)) =
        (broadcast clients (u ++ ": " ++ M) (some s) sendOk').count
          (Event.send c (u ++ ": " ++ M))) ∧
    (∀ (decode : List Nat → Option String) (bs : List Nat)
        (rest : List RecvResult) (evs : List Event),
      bs ≠ [] → decode bs = some M →
      msgLoop clients s u decode sendOk rest = some evs →
      msgLoop clients s u decode sendOk (RecvResult.chunk bs :: rest) =
        some (broadcast clients (u ++ ": " ++ M) (some s) sendOk ++ evs)) := by
  have hchar : ∀ (f : Sock → Bool) (c : Sock),
      (broadcast clients (u ++ ": " ++ M) (some s) f).count
          (Event.send c (u ++ ": " ++ M)) =
        if (dictGet clients c).isSome ∧ c ≠ s ∧ f c = true then 1 else 0 := by
    intro f c
    rw [count_broadcast clients (u ++ ": " ++ M) (some s) f c hnd]
    simp only [ne_eq, Option.some.injEq]
  refine ⟨hchar sendOk, ?_, ?_, ?_⟩
  · intro m
    exact send_excluded_not_mem_broadcast
  · intro c hc
    rw [hchar sendOk c, hchar sendOk' c, hc]
  · intro decode bs rest evs hbs hdec hloop
    simp only [msgLoop, if_neg hbs, hdec, hloop]

/-- C1 witness: with registry {1 ↦ alice, 2 ↦ bob, 3 ↦ carol} and alice (socket
1) sending "hi", bob (socket 2) receives "alice: hi" exactly once. -/
theorem C1_broadcast_exactly_once_witness :
    (dictKeys [(1, "alice"), (2, "bob"), (3, "carol")]).Nodup ∧
    (broadcast [(1, "alice"), (2, "bob"), (3, "carol")] ("alice" ++ ": " ++ "hi")
        (some 1) (fun _ => true)).count (Event.send 2 ("alice" ++ ": " ++ "hi")) =
      if (dictGet [(1, "alice"), (2, "bob"), (3, "carol")] 2).isSome ∧
          (2 : Sock) ≠ 1 ∧ (fun _ : Sock => true) 2 = true then 1 else 0 :=
  ⟨by decide,
   (C1_broadcast_exactly_once [(1, "alice"), (2, "bob"), (3, "carol")] 1
      "alice" "hi" (fun _ => true) (fun _ => true) (by decide)).1 2⟩

/-- C2: after any completed server-side handler run, the cleanup has run
exactly once — the socket's registry entry is gone and the socket was closed
exactly once; `_disconnect_client` removes the entry, broadcasts the leave
announcement to the remaining registered connections exactly when the
connection had been registered (with a non-empty username), and always closes
the connection. -/
theorem C2_cleanup_exactly_once :
    (∀ (clients : Registry) (sock : Sock) (script : HandlerScript)
        (decode : List Nat → Option String) (sendOk : Sock → Bool)
        (reg : Registry) (evs : List Event) (r : Option String),
      handle_client clients sock script decode sendOk = some (reg, evs, r) →
      dictGet reg sock = none ∧ evs.count (Event.close sock) = 1) ∧
    (∀ (clients : Registry) (sock : Sock) (sendOk : Sock → Bool),
      dictGet (disconnect_client clients sock sendOk).1 sock = none) ∧
    (∀ (clients : Registry) (sock : Sock) (sendOk : Sock → Bool)
        (u : String) (c : Sock) (v : String),
      dictGet clients sock = some u → u ≠ "" →
      (c, v) ∈ clients → c ≠ sock → sendOk c = true →
      Event.send c (leaveMsg u) ∈ (disconnect_client clients sock sendOk).2) ∧
    (∀ (clients : Registry) (sock : Sock) (sendOk : Sock → Bool),
      dictGet clients sock = none →
      (disconnect_client clients sock sendOk).2 = [Event.close sock]) ∧
    (∀ (clients : Registry) (sock : Sock) (sendOk : Sock → Bool),
      Event.close sock ∈ (disconnect_client clients sock sendOk).2) := by
  refine ⟨?_, ?_, ?_, ?_, ?_⟩
  · intro clients sock script decode sendOk reg evs r h
    exact handle_client_cleanup h
  · intro clients sock sendOk
    exact dictGet_dictRemove clients sock
  · intro clients sock sendOk u c v hget hu hcv hcs hok
    unfold disconnect_client
    apply List.mem_append_left
    rw [hget]
    show Event.send c (leaveMsg u) ∈
      if u = "" then []
      else broadcast (dictRemove clients sock) (leaveMsg u) none sendOk
    rw [if_neg hu]
    exact mem_broadcast.2 ⟨c, v, mem_dictRemove hcv hcs, by simp, hok, rfl⟩
  · intro clients sock sendOk hget
    unfold disconnect_client
    rw [hget]
    rfl
  · intro clients sock sendOk
    unfold disconnect_client
    exact List.mem_append_right _ (List.mem_singleton.2 rfl)

/-- C2 witness: a handler run for socket 2 joining as "bob" against registry
{1 ↦ alice}, sending one message and then seeing the peer close, ends with no
registry entry for socket 2 and exactly one close of socket 2. -/
theorem C2_cleanup_exactly_once_witness :
    handle_client [(1, "alice")] 2
        ⟨true, RecvResult.chunk [98], [RecvResult.chunk [104], RecvResult.chunk []]⟩
        (fun bs => if bs = [98] then some "bob"
                   else if bs = [104] then some "hi" else none)
        (fun _ => true) =
      some ([(1, "alice")],
        [Event.send 2 welcomeText, Event.send 1 (joinMsg "bob"),
         Event.send 1 ("bob" ++ ": " ++ "hi"), Event.send 1 (leaveMsg "bob"),
         Event.close 2], some "bob") ∧
    dictGet [(1, "alice")] 2 = none ∧
    List.count (Event.close 2)
        [Event.send 2 welcomeText, Event.send 1 (joinMsg "bob"),
         Event.send 1 ("bob" ++ ": " ++ "hi"), Event.send 1 (leaveMsg "bob"),
         Event.close 2] = 1 :=
  ⟨by decide,
   (C2_cleanup_exactly_once.1 [(1, "alice")] 2
      ⟨true, RecvResult.chunk [98], [RecvResult.chunk [104], RecvResult.chunk []]⟩
      (fun bs => if bs = [98] then some "bob"
                 else if bs = [104] then some "hi" else none)
      (fun _ => true) [(1, "alice")]
      [Event.send 2 welcomeText, Event.send 1 (joinMsg "bob"),
       Event.send 1 ("bob" ++ ": " ++ "hi"), Event.send 1 (leaveMsg "bob"),
       Event.close 2] (some "bob") (by decide)).1,
   (C2_cleanup_exactly_once.1 [(1, "alice")] 2
      ⟨true, RecvResult.chunk [98], [RecvResult.chunk [104], RecvResult.chunk []]⟩
      (fun bs => if bs = [98] then some "bob"
                 else if bs = [104] then some "hi" else none)
      (fun _ => true) [(1, "alice")]
      [Event.send 2 welcomeText, Event.send 1 (joinMsg "bob"),
       Event.send 1 ("bob" ++ ": " ++ "hi"), Event.send 1 (leaveMsg "bob"),
       Event.close 2] (some "bob") (by decide)).2⟩

/-- C8: a server-side connection whose username handshake yields an empty
(whitespace-only) or absent (recv failed) username is closed without being
registered: the registry is unchanged, the only events are the welcome send
and the close — no join or leave announcement — and an unregistered socket is
never a recipient of any broadcast. -/
theorem C8_empty_username_abandoned
    (clients : Registry) (sock : Sock) (ms : List RecvResult)
    (decode : List Nat → Option String) (sendOk : Sock → Bool)
    (h0 : dictGet clients sock = none) :
    (∀ (bs : List Nat) (s : String), decode bs = some s → pyStrip s = "" →
      handle_client clients sock ⟨true, RecvResult.chunk bs, ms⟩ decode sendOk =
        some (clients, [Event.send sock welcomeText, Event.close sock], none)) ∧
    (handle_client clients sock ⟨true, RecvResult.fail, ms⟩ decode sendOk =
      some (clients, [Event.send sock welcomeText, Event.close sock], none)) ∧
    (∀ (reg : Registry) (message m : String) (ex : Option Sock),
      dictGet reg sock = none →
      Event.send sock m ∉ broadcast reg message ex sendOk) := by
  have hdc : disconnect_client clients sock sendOk =
      (clients, [Event.close sock]) := by
    unfold disconnect_client
    rw [h0, dictRemove_eq_self h0]
    rfl
  refine ⟨?_, ?_, ?_⟩
  · intro bs s hdec hstrip
    simp [handle_client, hdec, hstrip, hdc]
  · simp [handle_client, hdc]
  · intro reg message m ex hreg hmem
    rcases mem_broadcast.1 hmem with ⟨c, v, hcv, _, _, he⟩
    injection he with h1 h2
    subst h1
    exact absurd rfl (dictGet_eq_none.1 hreg (sock, v) hcv)

/-- C8 witness: socket 2 answers the username prompt with whitespace only;
the handler closes it without registering and without any announcement. -/
theorem C8_empty_username_abandoned_witness :
    dictGet [(1, "alice")] 2 = none ∧
    pyStrip "  " = "" ∧
    handle_client [(1, "alice")] 2 ⟨true, RecvResult.chunk [32, 32], []⟩
        (fun _ => some "  ") (fun _ => true) =
      some ([(1, "alice")], [Event.send 2 welcomeText, Event.close 2], none) :=
  ⟨by decide, by decide,
   (C8_empty_username_abandoned [(1, "alice")] 2 [] (fun _ => some "  ")
      (fun _ => true) (by decide)).1 [32, 32] "  " rfl (by decide)⟩

/-- C10: a chunk that is not valid UTF-8 (`decode bs = none`, i.e. a raised
`UnicodeDecodeError`) never escapes the handler: the run still completes
(`isSome`), everything after the bad chunk is ignored (the failure is that
connection's disconnect), and the per-connection cleanup still runs — no
registry entry for the socket survives and the socket is closed exactly
once. -/
theorem C10_decode_failure_contained
    (clients : Registry) (sock : Sock) (w : Bool) (ur : RecvResult)
    (ms rest : List RecvResult) (bs : List Nat)
    (decode : List Nat → Option String) (sendOk : Sock → Bool)
    (hbad : decode bs = none) :
    (handle_client clients sock ⟨w, ur, ms ++ RecvResult.chunk bs :: rest⟩
        decode sendOk).isSome = true ∧
    handle_client clients sock ⟨w, ur, ms ++ RecvResult.chunk bs :: rest⟩
        decode sendOk =
      handle_client clients sock ⟨w, ur, ms ++ [RecvResult.chunk bs]⟩
        decode sendOk ∧
    (∀ (reg : Registry) (evs : List Event) (r : Option String),
      handle_client clients sock ⟨w, ur, ms ++ RecvResult.chunk bs :: rest⟩
          decode sendOk = some (reg, evs, r) →
      dictGet reg sock = none ∧ evs.count (Event.close sock) = 1) := by
  refine ⟨?_, ?_, fun reg evs r h => handle_client_cleanup h⟩
  · cases w with
    | false => simp [handle_client]
    | true =>
      cases ur with
      | fail => simp [handle_client]
      | chunk ubs =>
        cases hud : decode ubs with
        | none => simp [handle_client, hud]
        | some s =>
          by_cases hu : pyStrip s = ""
          · simp [handle_client, hud, hu]
          · obtain ⟨-, hsome⟩ := @msgLoop_stops_at_bad
              (dictInsert clients sock (pyStrip s)) sock
              (pyStrip s) decode sendOk bs hbad ms rest
            simp only [handle_client, hud, if_neg hu]
            cases hm : msgLoop (dictInsert clients sock (pyStrip s)) sock
                (pyStrip s) decode sendOk (ms ++ RecvResult.chunk bs :: rest) with
            | none =>
              rw [hm] at hsome
              exact absurd hsome (by simp)
            | some loopEvs => simp [hm]
  · cases w with
    | false => simp [handle_client]
    | true =>
      cases ur with
      | fail => simp [handle_client]
      | chunk ubs =>
        cases hud : decode ubs with
        | none => simp [handle_client, hud]
        | some s =>
          by_cases hu : pyStrip s = ""
          · simp [handle_client, hud, hu]
          · obtain ⟨heq, -⟩ := @msgLoop_stops_at_bad
              (dictInsert clients sock (pyStrip s)) sock
              (pyStrip s) decode sendOk bs hbad ms rest
            simp only [handle_client, hud, if_neg hu, heq]

/-- C10 witness: with "bob" registered on socket 2 against registry
{1 ↦ alice}, a non-decodable chunk ends the handler run with cleanup done. -/
theorem C10_decode_failure_contained_witness :
    (fun bs : List Nat => if bs = [98] then some "bob" else none) [255] = none ∧
    (handle_client [(1, "alice")] 2
        ⟨true, RecvResult.chunk [98],
         [] ++ RecvResult.chunk [255] :: [RecvResult.fail]⟩
        (fun bs => if bs = [98] then some "bob" else none)
        (fun _ => true)).isSome = true :=
  ⟨by decide,
   (C10_decode_failure_contained [(1, "alice")] 2 true (RecvResult.chunk [98])
      [] [RecvResult.fail] [255]
      (fun bs => if bs = [98] then some "bob" else none)
      (fun _ => true) (by decide)).1⟩

/-- C3: the discovery probe (modelled from the spec; its definition is absent
from src/) returns, without error, the dict of `(ip, port)` pairs parsed from
valid datagrams observed before the deadline: a malformed datagram anywhere in
the stream is silently discarded and does not abort the probe; zero responses
yield the empty dict; the round-trip example `"CHAT_SERVER|127.0.0.1|10000"`
appears as `{"127.0.0.1": 10000}` while `"CHAT_SERVER|bad"` is dropped;
duplicate IPs resolve last-write-wins; and every returned pair comes from some
valid datagram. -/
theorem C3_discovery :
    (∀ (pre post : List String) (d : String), parseDatagram d = none →
      discover_servers (pre ++ d :: post) = discover_servers (pre ++ post)) ∧
    discover_servers [] = [] ∧
    parseDatagram "CHAT_SERVER|bad" = none ∧
    discover_servers ["CHAT_SERVER|127.0.0.1|10000", "CHAT_SERVER|bad"] =
      [("127.0.0.1", 10000)] ∧
    (∀ (dgs : List String) (d ip : String) (p : Nat),
      parseDatagram d = some (ip, p) →
      ipDictGet (discover_servers (dgs ++ [d])) ip = some p) ∧
    (∀ (dgs : List String) (q : String × Nat),
      q ∈ discover_servers dgs → ∃ d ∈ dgs, parseDatagram d = some q) := by
  refine ⟨?_, by decide, by decide, by decide, ?_, ?_⟩
  · intro pre post d hd
    unfold discover_servers
    rw [List.foldl_append, List.foldl_append, List.foldl_cons, hd]
  · intro dgs d ip p hpd
    unfold discover_servers
    rw [List.foldl_append, List.foldl_cons, List.foldl_nil, hpd]
    exact ipDictGet_insert_self _ ip p
  · intro dgs q h
    rcases discover_sound_aux dgs [] q h with h1 | h1
    · exact absurd h1 (List.not_mem_nil q)
    · exact h1

/-- C3 witness: the malformed datagram `"CHAT_SERVER|bad"` is discarded from a
probe that also saw a valid advertisement, without aborting it. -/
theorem C3_discovery_witness :
    parseDatagram "CHAT_SERVER|bad" = none ∧
    discover_servers
        (["CHAT_SERVER|127.0.0.1|10000"] ++ "CHAT_SERVER|bad" :: []) =
      discover_servers (["CHAT_SERVER|127.0.0.1|10000"] ++ []) :=
  ⟨by decide,
   C3_discovery.1 ["CHAT_SERVER|127.0.0.1|10000"] [] "CHAT_SERVER|bad"
     (by decide)⟩

/-- C4: `send_message` on a session that is not Connected returns failure,
leaves the state untouched and performs no socket write (no `write` event at
all); on a Connected session it writes the full payload exactly once and
returns success, and a write error flips the state to Disconnected and returns
failure. -/
theorem C4_send_requires_connected (st : ClientState) (msg : String) :
    (∀ ok : Bool, st.is_connected = false →
      (send_message st msg ok).1 = false ∧
      (send_message st msg ok).2.1 = st ∧
      ∀ p, CEvent.write p ∉ (send_message st msg ok).2.2) ∧
    (st.is_connected = true → st.hasSocket = true →
      send_message st msg true = (true, st, [CEvent.write msg]) ∧
      send_message st msg false =
        (false, { st with is_connected := false }, [CEvent.write msg])) := by
  constructor
  · intro ok hnc
    rw [send_message, if_pos (Or.inl hnc)]
    refine ⟨rfl, rfl, ?_⟩
    intro p hp
    have := List.mem_singleton.1 hp
    exact CEvent.noConfusion this
  · intro hc hs
    have hcond : ¬(st.is_connected = false ∨ st.hasSocket = false) := by
      rw [hc, hs]
      simp
    constructor
    · rw [send_message, if_neg hcond, if_pos rfl]
    · rw [send_message, if_neg hcond]
      rfl

/-- C4 witness: a disconnected session refuses to send, and a connected one
writes the payload. -/
theorem C4_send_requires_connected_witness :
    (ClientState.mk (some "a") true false false).is_connected = false ∧
    (send_message ⟨some "a", true, false, false⟩ "hi" true).1 = false ∧
    ∀ p, CEvent.write p ∉ (send_message ⟨some "a", true, false, false⟩ "hi" true).2.2 :=
  ⟨rfl,
   ((C4_send_requires_connected ⟨some "a", true, false, false⟩ "hi").1 true rfl).1,
   ((C4_send_requires_connected ⟨some "a", true, false, false⟩ "hi").1 true rfl).2.2⟩

/-- C5: when the TCP connection attempt times out, is refused, or fails
otherwise, `connect` leaves the session Disconnected, returns failure, and
emits exactly one status event naming the failure kind — and the three kinds
produce pairwise distinct status texts; no exception reaches the caller
(`connect` is a total function on every script). -/
theorem C5_connect_failure_reported (st : ClientState) (script : ConnectScript)
    (hnc : st.is_connected = false) :
    (script.conn = ConnOutcome.timeout →
      connect st script = (false, st, [CEvent.status "Connection timed out"])) ∧
    (script.conn = ConnOutcome.refused →
      connect st script = (false, st, [CEvent.status "Connection refused"])) ∧
    (∀ e, script.conn = ConnOutcome.other e →
      connect st script =
        (false, st, [CEvent.status ("Connection failed: " ++ e)])) ∧
    (script.conn ≠ ConnOutcome.ok →
      (connect st script).1 = false ∧
      (connect st script).2.1.is_connected = false) ∧
    ("Connection timed out" ≠ "Connection refused" ∧
     (∀ e : String, "Connection timed out" ≠ "Connection failed: " ++ e) ∧
     (∀ e : String, "Connection refused" ≠ "Connection failed: " ++ e)) := by
  refine ⟨?_, ?_, ?_, ?_, ?_, ?_, ?_⟩
  · intro h
    rw [connect, h]
  · intro h
    rw [connect, h]
  · intro e h
    rw [connect, h]
  · intro h
    cases hc : script.conn with
    | ok => exact absurd hc h
    | timeout => rw [connect, hc]; exact ⟨rfl, hnc⟩
    | refused => rw [connect, hc]; exact ⟨rfl, hnc⟩
    | other e => rw [connect, hc]; exact ⟨rfl, hnc⟩
  · decide
  · intro e h
    have hd := congrArg String.data h
    rw [String.data_append] at hd
    simp at hd
  · intro e h
    have hd := congrArg String.data h
    rw [String.data_append] at hd
    simp at hd

/-- C5 witness: a refused connection attempt on a fresh session. -/
theorem C5_connect_failure_reported_witness :
    (ClientState.mk (some "alice") false false false).is_connected = false ∧
    ConnectScript.conn ⟨ConnOutcome.refused, none, "", none, "", true⟩ =
      ConnOutcome.refused ∧
    connect ⟨some "alice", false, false, false⟩
        ⟨ConnOutcome.refused, none, "", none, "", true⟩ =
      (false, ⟨some "alice", false, false, false⟩,
       [CEvent.status "Connection refused"]) :=
  ⟨rfl, rfl,
   (C5_connect_failure_reported ⟨some "alice", false, false, false⟩
      ⟨ConnOutcome.refused, none, "", none, "", true⟩ rfl).2.1 rfl⟩

/-- C6 counterexample: the claim says a `connect` call without a non-empty
username emits an error status and does not complete the connection.  On the
code, a session constructed with no username connects successfully: the CLI
fallback prompts for a name ("bob" here), the connection completes
(`is_connected = true`, return value `True`), and the only status event is the
success status "Connected as bob" — no error status is emitted. -/
theorem C6_no_username_counterexample :
    (ClientState.mk none false false false).username = none ∧
    connect ⟨none, false, false, false⟩
        ⟨ConnOutcome.ok, some "Welcome! Please enter your username", "",
         some "bob", "", true⟩ =
      (true, ⟨some "bob", true, false, true⟩,
       [CEvent.message "[SERVER] Welcome! Please enter your username",
        CEvent.prompt, CEvent.write "bob",
        CEvent.status "Connected as bob"]) := by
  exact ⟨rfl, by decide⟩

/-- C6 amended: when no non-empty username was supplied, `connect` does not
fail for that reason — it prompts on the console (`input()`), strips the
answer (falling back to "anonymous" when the prompt raises), stores it as the
session's username, and, when the network steps succeed, completes the
connection as that user. -/
theorem C6_username_prompt_fallback (st : ClientState) (script : ConnectScript)
    (w : String) (hnone : st.username = none)
    (hok : script.conn = ConnOutcome.ok)
    (hw : script.welcomeRecv = some w) :
    CEvent.prompt ∈ (connect st script).2.2 ∧
    (connect st script).2.1.username =
      some (match script.inputResult with
            | some s => pyStrip s
            | none => "anonymous") ∧
    (script.sendallOk = true →
      (connect st script).1 = true ∧
      (connect st script).2.1.is_connected = true) := by
  rw [connect, hok, hw]
  simp only [hnone]
  by_cases hsend : script.sendallOk = false
  · rw [if_pos hsend]
    refine ⟨?_, rfl, ?_⟩
    · simp
    · intro h
      rw [h] at hsend
      exact absurd hsend (by simp)
  · rw [if_neg hsend]
    refine ⟨?_, rfl, fun _ => ⟨rfl, rfl⟩⟩
    simp

/-- C6 amended witness: prompting fails (`input()` raises), the username falls
back to "anonymous" and the connection still completes. -/
theorem C6_username_prompt_fallback_witness :
    (ClientState.mk none false false false).username = none ∧
    connect ⟨none, false, false, false⟩
        ⟨ConnOutcome.ok, some "hi", "", none, "", true⟩ =
      (true, ⟨some "anonymous", true, false, true⟩,
       [CEvent.message "[SERVER] hi", CEvent.prompt,
        CEvent.write "anonymous", CEvent.status "Connected as anonymous"]) ∧
    CEvent.prompt ∈ (connect ⟨none, false, false, false⟩
        ⟨ConnOutcome.ok, some "hi", "", none, "", true⟩).2.2 :=
  ⟨rfl, by decide,
   (C6_username_prompt_fallback ⟨none, false, false, false⟩
      ⟨ConnOutcome.ok, some "hi", "", none, "", true⟩ "hi" rfl rfl rfl).1⟩

/-- C7: `disconnect` is safe from any state and never raises (it is a total
function); it always ends with `is_connected = false` and a final
"Disconnected" status event; when a socket exists it is closed (close errors
swallowed); and a second call is idempotent — the end state and the emitted
events of the second call equal those of the first, so beyond re-emitting its
status event it changes nothing. -/
theorem C7_disconnect_idempotent (st : ClientState) :
    (disconnect st).1.is_connected = false ∧
    CEvent.status "Disconnected" ∈ (disconnect st).2 ∧
    (st.hasSocket = true →
      (disconnect st).1.sockClosed = true ∧ CEvent.close ∈ (disconnect st).2) ∧
    (disconnect (disconnect st).1).1 = (disconnect st).1 ∧
    (disconnect (disconnect st).1).2 = (disconnect st).2 := by
  refine ⟨rfl, ?_, ?_, ?_, ?_⟩
  · rw [disconnect]
    exact List.mem_append_right _ (List.mem_singleton.2 rfl)
  · intro hs
    constructor
    · rw [disconnect]
      simp [hs]
    · rw [disconnect]
      exact List.mem_append_left _ (by rw [hs]; exact List.mem_singleton.2 rfl)
  · rw [disconnect, disconnect]
    simp
  · rfl

/-- C7 witness: double disconnect on a connected session with a socket. -/
theorem C7_disconnect_idempotent_witness :
    (ClientState.mk (some "a") true false true).hasSocket = true ∧
    (disconnect ⟨some "a", true, false, true⟩).1.sockClosed = true ∧
    (disconnect (disconnect ⟨some "a", true, false, true⟩).1).1 =
      (disconnect ⟨some "a", true, false, true⟩).1 :=
  ⟨rfl,
   ((C7_disconnect_idempotent ⟨some "a", true, false, true⟩).2.2.1 rfl).1,
   (C7_disconnect_idempotent ⟨some "a", true, false, true⟩).2.2.2.1⟩

/-- C9: `shutdown` clears the running flag, closes every currently registered
connection exactly once (with distinct registry keys), leaves the registry
empty, and closes the listening socket last; a repeated call is safely
idempotent — it reproduces the same state, closes no client connection, and
only re-closes the listening socket. -/
theorem C9_shutdown_closes_all (st : ServerState) :
    (shutdown st).1.running = false ∧
    (shutdown st).1.clients = [] ∧
    (∀ c v, (c, v) ∈ st.clients → Event.close c ∈ (shutdown st).2) ∧
    ((dictKeys st.clients).Nodup →
      ∀ c v, (c, v) ∈ st.clients →
        (shutdown st).2.count (Event.close c) = 1) ∧
    (st.hasServerSocket = true →
      (shutdown st).2.getLast? = some Event.closeServer) ∧
    (shutdown (shutdown st).1).1 = (shutdown st).1 ∧
    (shutdown (shutdown st).1).2 =
      (if st.hasServerSocket then [Event.closeServer] else []) := by
  refine ⟨rfl, rfl, ?_, ?_, ?_, rfl, rfl⟩
  · intro c v hcv
    rw [shutdown]
    exact List.mem_append_left _
      (List.mem_map.2 ⟨(c, v), hcv, rfl⟩)
  · intro hnd c v hcv
    rw [shutdown, List.count_append]
    have h1 : (st.clients.map (fun p => Event.close p.1)).count (Event.close c) = 1 := by
      apply List.count_eq_one_of_mem
      · have : st.clients.map (fun p => Event.close p.1) =
            (dictKeys st.clients).map Event.close := by
          rw [dictKeys, List.map_map]
          rfl
        rw [this]
        exact hnd.map (fun a b hab => by injection hab)
      · exact List.mem_map.2 ⟨(c, v), hcv, rfl⟩
    have h2 : (if st.hasServerSocket then [Event.closeServer] else []).count
        (Event.close c) = 0 := by
      split
      · simp
      · simp
    rw [h1, h2]
  · intro hs
    rw [shutdown]
    simp only [hs, if_pos]
    rw [List.getLast?_concat]

/-- C9 witness: shutting down with three registered connections closes all
three exactly once, empties the registry, and a second shutdown only
re-closes the listening socket. -/
theorem C9_shutdown_closes_all_witness :
    (dictKeys [(1, "a"), (2, "b"), (3, "c")]).Nodup ∧
    ((1 : Sock), "a") ∈ [((1 : Sock), "a"), (2, "b"), (3, "c")] ∧
    (shutdown ⟨[(1, "a"), (2, "b"), (3, "c")], true, true⟩).2.count
      (Event.close 1) = 1 ∧
    (shutdown ⟨[(1, "a"), (2, "b"), (3, "c")], true, true⟩).1.clients = [] :=
  ⟨by decide, by decide,
   (C9_shutdown_closes_all ⟨[(1, "a"), (2, "b"), (3, "c")], true, true⟩).2.2.2.1
     (by decide) 1 "a" (by decide),
   (C9_shutdown_closes_all ⟨[(1, "a"), (2, "b"), (3, "c")], true, true⟩).2.1⟩

end Chat
